import Mathlib

/-!
Verification of the exam-management backend (Exam_Tester_Backend).

The definitions below are a shallow embedding of the Express route handlers
in `src/routes/examAttempts.js`, the submissions router, the exams router,
and the Mongoose schemas (`src/models/Exam.js`, the submission schema).
Database collections are modelled as Lean lists; `findOne` becomes
`List.find?`; Mongoose `save` on a fetched document becomes replacement of
the row with the matching `_id`; wall-clock `Date` values are integers
(milliseconds), and JS numbers that hold second counts are `Int`.
-/

namespace ExamTester

/-- Attempt status enum of the ExamAttempt schema:
`started | paused | completed | expired`. -/
inductive Status where
  | started
  | paused
  | completed
  | expired
deriving DecidableEq, Repr

/-- One ExamAttempt document.  `startedAt`, `lastAccessedAt` are epoch
milliseconds; `timeRemaining` is in seconds (field `timeRemaining` in the
code, `timeRemainingSeconds` in the spec). -/
structure ExamAttempt where
  id : Nat
  studentId : Nat
  examId : Nat
  startedAt : Int
  lastAccessedAt : Int
  timeRemaining : Int
  status : Status
  isCompleted : Bool
deriving DecidableEq, Repr

/-- One Exam document (`src/models/Exam.js`).  `examFileId` is the GridFS
key rendered as a string; `examPdfUrl` is the legacy Cloudinary URL field
read by the file route (absent on new documents, hence `Option`). -/
structure Exam where
  id : Nat
  title : String
  examFileId : String
  examPdfUrl : Option String
  duration : Int
  createdBy : Nat
  isActive : Bool
deriving DecidableEq, Repr

/-- One Submission document (submission schema): unique per
(studentId, examId); `answerUrl` holds the stored answer reference. -/
structure Submission where
  id : Nat
  studentId : Nat
  examId : Nat
  answerUrl : String
  submittedAt : Int
deriving DecidableEq, Repr

/-- The persistent store: the three collections the routes touch, plus a
counter used to hand out fresh `_id`s on insert. -/
structure DB where
  exams : List Exam
  attempts : List ExamAttempt
  submissions : List Submission
  nextId : Nat
deriving DecidableEq, Repr

/-- `ExamAttempt.findOne({studentId, examId})`. -/
def findAttemptByPair (db : DB) (studentId examId : Nat) : Option ExamAttempt :=
  db.attempts.find? (fun a => a.studentId == studentId && a.examId == examId)

/-- `ExamAttempt.findOne({_id: attemptId, studentId})`. -/
def findAttemptByOwner (db : DB) (attemptId studentId : Nat) : Option ExamAttempt :=
  db.attempts.find? (fun a => a.id == attemptId && a.studentId == studentId)

/-- `Submission.findOne({studentId, examId})`. -/
def findSubmission (db : DB) (studentId examId : Nat) : Option Submission :=
  db.submissions.find? (fun s => s.studentId == studentId && s.examId == examId)

/-- `Exam.findById(examId)`. -/
def findExam (db : DB) (examId : Nat) : Option Exam :=
  db.exams.find? (fun e => e.id == examId)

/-- Mongoose `attempt.save()` on a fetched document: the row whose `_id`
matches is overwritten with the mutated document. -/
def saveAttempt (db : DB) (a : ExamAttempt) : DB :=
  { db with attempts := db.attempts.map (fun x => if x.id == a.id then a else x) }

/-- Outcome of `POST /api/exam-attempts/start`. -/
inductive StartResult where
  /-- 404 `Exam not found`. -/
  | examNotFound
  /-- 400 `You have already attempted this exam...` (a submission exists). -/
  | alreadySubmitted
  /-- 400 `You have already completed this exam.` -/
  | alreadyCompleted
  /-- 200 with the saved attempt document echoed back. -/
  | ok (attempt : ExamAttempt)
deriving DecidableEq, Repr

/-- `router.post('/start')` of `src/routes/examAttempts.js` after
validation: look up the exam, reject when a submission exists, resume a
non-completed attempt (`lastAccessedAt = now`, `status = started`), reject
a completed one, otherwise insert a fresh attempt with
`timeRemaining = exam.duration * 60`.  The ExamAttempt schema file is not
in the sources; its creation defaults (`startedAt = now`,
`lastAccessedAt = now`, `isCompleted = false`) are modelled from the spec
(`startedAt = now` on creation, §4.3 Start). -/
def startAttempt (db : DB) (studentId examId : Nat) (now : Int) :
    StartResult × DB :=
  match findExam db examId with
  | none => (.examNotFound, db)
  | some exam =>
    match findSubmission db studentId examId with
    | some _ => (.alreadySubmitted, db)
    | none =>
      match findAttemptByPair db studentId examId with
      | some attempt =>
        if attempt.isCompleted then
          (.alreadyCompleted, db)
        else
          let resumed := { attempt with lastAccessedAt := now, status := Status.started }
          (.ok resumed, saveAttempt db resumed)
      | none =>
        let fresh : ExamAttempt :=
          { id := db.nextId
            studentId := studentId
            examId := examId
            startedAt := now
            lastAccessedAt := now
            timeRemaining := exam.duration * 60
            status := Status.started
            isCompleted := false }
        (.ok fresh, { db with attempts := db.attempts ++ [fresh], nextId := db.nextId + 1 })

/-- Outcome of `GET /api/exam-attempts/:examId`: `attempt: null` when no
row exists, otherwise the (possibly just-expired) document together with
the live computed `timeRemaining` the response reports. -/
inductive GetStatusResult where
  | noAttempt
  | ok (attempt : ExamAttempt) (reportedRemaining : Int)
deriving DecidableEq, Repr

/-- `router.get('/:examId')`: compute
`timeElapsed = floor((now - startedAt) / 1000)`,
`remainingTime = max(0, timeRemaining - timeElapsed)`; when
`remainingTime <= 0` and the status is not `completed`, persist
`status = expired`, `timeRemaining = 0`; the response always reports the
computed `remainingTime`. -/
def getStatus (db : DB) (studentId examId : Nat) (now : Int) :
    GetStatusResult × DB :=
  match findAttemptByPair db studentId examId with
  | none => (.noAttempt, db)
  | some attempt =>
    let timeElapsed := Int.ediv (now - attempt.startedAt) 1000
    let remainingTime := max 0 (attempt.timeRemaining - timeElapsed)
    if remainingTime ≤ 0 && attempt.status != Status.completed then
      let expired := { attempt with status := Status.expired, timeRemaining := 0 }
      (.ok expired remainingTime, saveAttempt db expired)
    else
      (.ok attempt remainingTime, db)

/-- Outcome of `PUT /api/exam-attempts/:attemptId/time`. -/
inductive UpdateTimeResult where
  /-- 404 `Exam attempt not found` (absent or not owned by the caller). -/
  | notFound
  /-- 200 with the saved attempt document. -/
  | ok (attempt : ExamAttempt)
deriving DecidableEq, Repr

/-- `router.put('/:attemptId/time')`: authorization by
`findOne({_id, studentId})`, then `timeRemaining = max(0, input)`,
`lastAccessedAt = now`, and `status = expired` when the clamped value is
`<= 0`. -/
def updateTime (db : DB) (attemptId studentId : Nat) (newRemaining : Int)
    (now : Int) : UpdateTimeResult × DB :=
  match findAttemptByOwner db attemptId studentId with
  | none => (.notFound, db)
  | some attempt =>
    let clamped := max 0 newRemaining
    let updated :=
      { attempt with
          timeRemaining := clamped
          lastAccessedAt := now
          status := if clamped ≤ 0 then Status.expired else attempt.status }
    (.ok updated, saveAttempt db updated)

/-- Outcome of `PUT /api/exam-attempts/:attemptId/complete`. -/
inductive CompleteResult where
  | notFound
  | ok
deriving DecidableEq, Repr

/-- `router.put('/:attemptId/complete')`: authorization by
`findOne({_id, studentId})`, then unconditionally `status = completed`,
`isCompleted = true`. -/
def completeAttempt (db : DB) (attemptId studentId : Nat) :
    CompleteResult × DB :=
  match findAttemptByOwner db attemptId studentId with
  | none => (.notFound, db)
  | some attempt =>
    let done := { attempt with status := Status.completed, isCompleted := true }
    (.ok, saveAttempt db done)

/-- Outcome of `POST /api/submissions`. -/
inductive SubmitResult where
  /-- 404 `Exam not found`. -/
  | examNotFound
  /-- 400 `You have already submitted answers for this exam`. -/
  | duplicate
  /-- 201 with the created submission row. -/
  | created (submission : Submission)
deriving DecidableEq, Repr

/-- The submissions router's `router.post('/')` after validation and file
upload: reject if the exam is absent or a submission for
(studentId, examId) already exists, otherwise insert a row holding the
uploaded file's `answerUrl`.  `submittedAt = now` is the schema default. -/
def submitAnswer (db : DB) (studentId examId : Nat) (answerUrl : String)
    (now : Int) : SubmitResult × DB :=
  match findExam db examId with
  | none => (.examNotFound, db)
  | some _ =>
    match findSubmission db studentId examId with
    | some _ => (.duplicate, db)
    | none =>
      let row : Submission :=
        { id := db.nextId
          studentId := studentId
          examId := examId
          answerUrl := answerUrl
          submittedAt := now }
      (.created row, { db with submissions := db.submissions ++ [row], nextId := db.nextId + 1 })

/-- GridFS file metadata row, as returned by `bucket.find({_id})`:
`contentType` and `filename` may be unset, the route then defaults them. -/
structure GridFile where
  id : String
  contentType : Option String
  filename : Option String
deriving DecidableEq, Repr

/-- JS `String.prototype.startsWith`, modelled on the character list. -/
def strStartsWith (s p : String) : Bool :=
  p.data.isPrefixOf s.data

/-- `mongoose.Types.ObjectId.isValid` on a string: 24 hex characters. -/
def isValidObjectId (s : String) : Bool :=
  s.length == 24 && s.data.all (fun c => c.isDigit || ('a' ≤ c && c ≤ 'f') || ('A' ≤ c && c ≤ 'F'))

/-- Outcome of `GET /api/exams/file/:id`. -/
inductive FileResult where
  /-- `res.redirect(url)`. -/
  | redirect (url : String)
  /-- 400 `Invalid file ID format`. -/
  | invalidId
  /-- 404 `Exam file not found` (no exam references this id). -/
  | examNotFound
  /-- 403 `Access denied: This exam is not currently active`. -/
  | forbidden
  /-- 404 `File not found in GridFS`. -/
  | fileNotFound
  /-- Stream the blob inline: `Content-Type`, `Content-Disposition`
  filename, `Cache-Control` max-age seconds. -/
  | stream (contentType : String) (filename : String) (cacheMaxAge : Nat)
deriving DecidableEq, Repr

/-- The exams router's `router.get('/file/:id')`: redirect immediately on
an `http`-prefixed reference; validate the ObjectId; find the exam by
`$or` over `examFileId` / `examPdfUrl`; prefer a populated legacy
`examPdfUrl` redirect; require `isActive`; then stream from GridFS with
`contentType || 'application/pdf'`, `filename || title + '.pdf'`, and
`Cache-Control: public, max-age=3600`. -/
def serveExamFile (exams : List Exam) (grid : List GridFile) (fileId : String) :
    FileResult :=
  if strStartsWith fileId "http" then
    .redirect fileId
  else if !isValidObjectId fileId then
    .invalidId
  else
    match exams.find? (fun e => e.examFileId == fileId || e.examPdfUrl == some fileId) with
    | none => .examNotFound
    | some exam =>
      match exam.examPdfUrl with
      | some url =>
        if strStartsWith url "http" then
          .redirect url
        else
          serveActive exam grid fileId
      | none => serveActive exam grid fileId
where
  /-- The tail of the handler after the legacy-URL branch. -/
  serveActive (exam : Exam) (grid : List GridFile) (fileId : String) : FileResult :=
    if !exam.isActive then
      .forbidden
    else
      match grid.find? (fun f => f.id == fileId) with
      | none => .fileNotFound
      | some f =>
        .stream (f.contentType.getD "application/pdf")
          (f.filename.getD (exam.title ++ ".pdf")) 3600

/-- Principal roles set by the auth middleware. -/
inductive Role where
  | student
  | teacher
  | admin
deriving DecidableEq, Repr

/-- The exams router's `router.get('/')`: the Mongo query is `{}` for
admin, `{isActive: true}` for a student, and
`{createdBy: requesterId, isActive: true}` for a teacher. -/
def listExams (role : Role) (requesterId : Nat) (exams : List Exam) :
    List Exam :=
  exams.filter (fun e =>
    match role with
    | .student => e.isActive
    | .teacher => e.createdBy == requesterId && e.isActive
    | .admin => true)

/-- Outcome of `PUT /api/exams/:id/cancel` and `PUT /api/exams/:id/activate`. -/
inductive ToggleResult where
  /-- 404 `Exam not found or you do not have permission to ...`. -/
  | notFound
  /-- 400 `Exam is already cancelled` / `Exam is already active`. -/
  | alreadyInState
  /-- 200, flag flipped. -/
  | ok
deriving DecidableEq, Repr

/-- `Exam.findOne({_id: examId, createdBy: teacherId})`. -/
def findExamByCreator (db : DB) (examId teacherId : Nat) : Option Exam :=
  db.exams.find? (fun e => e.id == examId && e.createdBy == teacherId)

/-- `Exam.findByIdAndUpdate(examId, {isActive: b})`. -/
def setExamActive (db : DB) (examId : Nat) (b : Bool) : DB :=
  { db with exams := db.exams.map (fun e => if e.id == examId then { e with isActive := b } else e) }

/-- `router.put('/:id/cancel')`: the lookup keyed on both `_id` and
`createdBy` makes a non-creator indistinguishable from a missing exam
(404); cancelling an already-inactive exam is a 400; otherwise
`isActive := false`. -/
def cancelExam (db : DB) (examId teacherId : Nat) : ToggleResult × DB :=
  match findExamByCreator db examId teacherId with
  | none => (.notFound, db)
  | some exam =>
    if !exam.isActive then (.alreadyInState, db)
    else (.ok, setExamActive db examId false)

/-- `router.put('/:id/activate')`: mirror image of cancel. -/
def activateExam (db : DB) (examId teacherId : Nat) : ToggleResult × DB :=
  match findExamByCreator db examId teacherId with
  | none => (.notFound, db)
  | some exam =>
    if exam.isActive then (.alreadyInState, db)
    else (.ok, setExamActive db examId true)

/-! ### General lemmas about the store operations -/

/-- Replacing, by `_id`, the row that `find?` located yields a list on
which `find?` locates the replacement, provided the replacement still
satisfies the search predicate.  (Rows in front of the match fail `p`, so
they either stay in place — still failing `p` — or are themselves
rewritten to the replacement, which `find?` then returns.) -/
theorem find?_map_update (l : List ExamAttempt) (p : ExamAttempt → Bool)
    (a a' : ExamAttempt) (h : l.find? p = some a) (hp : p a' = true) :
    (l.map (fun x => if x.id == a.id then a' else x)).find? p = some a' := by
  induction l with
  | nil => simp at h
  | cons x xs ih =>
    by_cases hpx : p x = true
    · rw [List.find?_cons_of_pos _ hpx] at h
      have hx : x = a := by injection h
      subst hx
      simp only [List.map_cons, beq_self_eq_true, if_true]
      exact List.find?_cons_of_pos _ hp
    · rw [List.find?_cons_of_neg _ hpx] at h
      by_cases hxid : (x.id == a.id) = true
      · simp only [List.map_cons, hxid, if_true]
        exact List.find?_cons_of_pos _ hp
      · simp only [List.map_cons, hxid, if_false]
        rw [List.find?_cons_of_neg _ (by simp [Bool.not_eq_true] at hpx ⊢; exact hpx)]
        exact ih h

/-- `saveAttempt` version of `find?_map_update`: after saving a mutated
document `a'` (same `_id` as the fetched `a`), any `findOne` whose
predicate `a'` satisfies returns `a'`. -/
theorem find?_saveAttempt (db : DB) (p : ExamAttempt → Bool)
    (a a' : ExamAttempt) (h : db.attempts.find? p = some a)
    (hid : a'.id = a.id) (hp : p a' = true) :
    (saveAttempt db a').attempts.find? p = some a' := by
  show (db.attempts.map (fun x => if x.id == a'.id then a' else x)).find? p = some a'
  rw [hid]
  exact find?_map_update db.attempts p a a' h hp

/-! ### C1: Start is idempotent on the attempt row -/

/-- C1.  For a valid (studentId, examId) pair with no submission and no
existing attempt, calling Start twice in a row creates exactly one
ExamAttempt row: the first call inserts a fresh attempt, the second call
returns the same attempt id with `lastAccessedAt = now₂` and
`status = started`, leaves the number of attempt rows unchanged, and does
not reset `timeRemaining` (it is still `exam.duration * 60`). -/
theorem start_twice_single_attempt (db : DB) (s e : Nat) (exam : Exam)
    (now₁ now₂ : Int)
    (hexam : findExam db e = some exam)
    (hsub : findSubmission db s e = none)
    (hatt : findAttemptByPair db s e = none) :
    let fresh : ExamAttempt :=
      ⟨db.nextId, s, e, now₁, now₁, exam.duration * 60, Status.started, false⟩
    let db₁ := (startAttempt db s e now₁).2
    (startAttempt db s e now₁).1 = StartResult.ok fresh ∧
    (startAttempt db₁ s e now₂).1 =
      StartResult.ok { fresh with lastAccessedAt := now₂ } ∧
    (startAttempt db₁ s e now₂).2.attempts.length = db₁.attempts.length ∧
    findAttemptByPair (startAttempt db₁ s e now₂).2 s e =
      some { fresh with lastAccessedAt := now₂ } := by
  intro fresh db₁
  have h1 : startAttempt db s e now₁ =
      (StartResult.ok fresh,
        { db with attempts := db.attempts ++ [fresh], nextId := db.nextId + 1 }) := by
    simp only [startAttempt, hexam, hsub, hatt]
  have hdb₁ : db₁ = { db with attempts := db.attempts ++ [fresh], nextId := db.nextId + 1 } := by
    show (startAttempt db s e now₁).2 = _
    rw [h1]
  have hexam₁ : findExam db₁ e = some exam := by rw [hdb₁]; exact hexam
  have hsub₁ : findSubmission db₁ s e = none := by rw [hdb₁]; exact hsub
  have hatt₁ : findAttemptByPair db₁ s e = some fresh := by
    rw [hdb₁]
    show (db.attempts ++ [fresh]).find? _ = some fresh
    rw [List.find?_append]
    have hatt' : db.attempts.find? (fun a => a.studentId == s && a.examId == e) = none := hatt
    rw [hatt']
    simp [fresh]
  have hfresh_nc : fresh.isCompleted = false := rfl
  have h2 : startAttempt db₁ s e now₂ =
      (StartResult.ok { fresh with lastAccessedAt := now₂ },
        saveAttempt db₁ { fresh with lastAccessedAt := now₂ }) := by
    simp only [startAttempt, hexam₁, hsub₁, hatt₁, hfresh_nc, Bool.false_eq_true,
      if_false]
  refine ⟨by rw [h1], by rw [h2], ?_, ?_⟩
  · rw [h2]
    show (db₁.attempts.map _).length = db₁.attempts.length
    exact db₁.attempts.length_map _
  · rw [h2]
    exact find?_saveAttempt db₁ _ fresh { fresh with lastAccessedAt := now₂ }
      hatt₁ rfl (by simp)

/-- Concrete witness for `start_twice_single_attempt`: one exam, empty
attempt and submission collections. -/
theorem start_twice_single_attempt_witness :
    (startAttempt ⟨[⟨1, "t", "f", none, 60, 9, true⟩], [], [], 5⟩ 2 1 10).1 =
      StartResult.ok ⟨5, 2, 1, 10, 10, 3600, Status.started, false⟩ ∧
    (startAttempt (startAttempt ⟨[⟨1, "t", "f", none, 60, 9, true⟩], [], [], 5⟩
        2 1 10).2 2 1 20).1 =
      StartResult.ok ⟨5, 2, 1, 10, 20, 3600, Status.started, false⟩ ∧
    (startAttempt (startAttempt ⟨[⟨1, "t", "f", none, 60, 9, true⟩], [], [], 5⟩
        2 1 10).2 2 1 20).2.attempts.length =
      (startAttempt ⟨[⟨1, "t", "f", none, 60, 9, true⟩], [], [], 5⟩
        2 1 10).2.attempts.length ∧
    findAttemptByPair (startAttempt (startAttempt
        ⟨[⟨1, "t", "f", none, 60, 9, true⟩], [], [], 5⟩ 2 1 10).2 2 1 20).2 2 1 =
      some ⟨5, 2, 1, 10, 20, 3600, Status.started, false⟩ := by
  have h := start_twice_single_attempt ⟨[⟨1, "t", "f", none, 60, 9, true⟩], [], [], 5⟩
    2 1 ⟨1, "t", "f", none, 60, 9, true⟩ 10 20 (by decide) (by decide) (by decide)
  simpa using h

/-! ### C2: GetStatus checkpoint expiry -/

/-- Helper: one full run of GetStatus in the expired case. -/
theorem getStatus_run_of_expired (db : DB) (s e : Nat) (now : Int)
    (a : ExamAttempt) (h : findAttemptByPair db s e = some a)
    (hrem : a.timeRemaining - Int.ediv (now - a.startedAt) 1000 ≤ 0)
    (hst : a.status ≠ Status.completed) :
    getStatus db s e now =
      (GetStatusResult.ok { a with status := Status.expired, timeRemaining := 0 }
        (max 0 (a.timeRemaining - Int.ediv (now - a.startedAt) 1000)),
       saveAttempt db { a with status := Status.expired, timeRemaining := 0 }) := by
  have h1 : max 0 (a.timeRemaining - Int.ediv (now - a.startedAt) 1000) ≤ 0 :=
    max_le (le_refl 0) hrem
  have hc : (decide (max 0 (a.timeRemaining - Int.ediv (now - a.startedAt) 1000) ≤ 0)
      && (a.status != Status.completed)) = true := by
    rw [Bool.and_eq_true]
    exact ⟨decide_eq_true h1, by simpa [bne_iff_ne] using hst⟩
  simp only [getStatus, h]
  rw [if_pos (of_decide_eq_true (by simpa using hc))]

/-- Helper: one full run of GetStatus in the still-live case — a pure
read, the store is returned unchanged. -/
theorem getStatus_run_of_live (db : DB) (s e : Nat) (now : Int)
    (a : ExamAttempt) (h : findAttemptByPair db s e = some a)
    (hrem : 0 < a.timeRemaining - Int.ediv (now - a.startedAt) 1000) :
    getStatus db s e now =
      (GetStatusResult.ok a (max 0 (a.timeRemaining - Int.ediv (now - a.startedAt) 1000)), db) := by
  have h0 : ¬ (max 0 (a.timeRemaining - Int.ediv (now - a.startedAt) 1000) ≤ 0) := by
    have := le_max_right (0 : Int) (a.timeRemaining - Int.ediv (now - a.startedAt) 1000)
    omega
  simp only [getStatus, h]
  rw [if_neg (by simp [h0])]

/-- C2.  For an existing attempt, GetStatus computes
`elapsed = ⌊(now - startedAt)/1000⌋` and
`rem = max 0 (timeRemaining - elapsed)`.  When `rem ≤ 0` and the status is
not `completed`, it reports `expired` with remaining `rem = 0` and
persists `status = expired`, `timeRemaining = 0`; a repeated call at any
post-start clock reports the same expired record with remaining `0` and
leaves the stored row at the same value (idempotence).  When `0 < rem`, it
reports the computed remaining time and does not mutate the store at
all. -/
theorem getStatus_expiry (db : DB) (s e : Nat) (now now' : Int)
    (a : ExamAttempt) (h : findAttemptByPair db s e = some a) :
    (max 0 (a.timeRemaining - Int.ediv (now - a.startedAt) 1000) ≤ 0 →
      a.status ≠ Status.completed →
      (getStatus db s e now).1 = GetStatusResult.ok
        { a with status := Status.expired, timeRemaining := 0 } 0 ∧
      findAttemptByPair (getStatus db s e now).2 s e =
        some { a with status := Status.expired, timeRemaining := 0 } ∧
      (a.startedAt ≤ now' →
        (getStatus (getStatus db s e now).2 s e now').1 = GetStatusResult.ok
          { a with status := Status.expired, timeRemaining := 0 } 0 ∧
        findAttemptByPair (getStatus (getStatus db s e now).2 s e now').2 s e =
          some { a with status := Status.expired, timeRemaining := 0 })) ∧
    (0 < max 0 (a.timeRemaining - Int.ediv (now - a.startedAt) 1000) →
      getStatus db s e now =
        (GetStatusResult.ok a
          (max 0 (a.timeRemaining - Int.ediv (now - a.startedAt) 1000)), db)) := by
  constructor
  · intro hrem hst
    have hrem' : a.timeRemaining - Int.ediv (now - a.startedAt) 1000 ≤ 0 := by
      have := le_max_right (0 : Int) (a.timeRemaining - Int.ediv (now - a.startedAt) 1000)
      omega
    have hmax0 : max 0 (a.timeRemaining - Int.ediv (now - a.startedAt) 1000) = 0 := by
      omega
    have hrun := getStatus_run_of_expired db s e now a h hrem' hst
    rw [hmax0] at hrun
    have hpexp : (fun x : ExamAttempt => x.studentId == s && x.examId == e)
        ({ a with status := Status.expired, timeRemaining := 0 }) = true := by
      simpa using List.find?_some h
    have hfind₁ : findAttemptByPair (getStatus db s e now).2 s e =
        some { a with status := Status.expired, timeRemaining := 0 } := by
      rw [hrun]
      exact find?_saveAttempt db _ a _ h rfl hpexp
    refine ⟨by rw [hrun], hfind₁, ?_⟩
    intro hnow
    have helapsed' : (0 : Int) ≤
        Int.ediv (now' - ({ a with status := Status.expired, timeRemaining := 0 } : ExamAttempt).startedAt) 1000 := by
      apply Int.ediv_nonneg _ (by norm_num)
      show (0 : Int) ≤ now' - a.startedAt
      omega
    have hrem₂ : ({ a with status := Status.expired, timeRemaining := 0 } : ExamAttempt).timeRemaining -
        Int.ediv (now' - ({ a with status := Status.expired, timeRemaining := 0 } : ExamAttempt).startedAt) 1000 ≤ 0 := by
      show (0 : Int) - _ ≤ 0
      omega
    have hst₂ : ({ a with status := Status.expired, timeRemaining := 0 } : ExamAttempt).status ≠
        Status.completed := by
      simp
    have hrun₂ := getStatus_run_of_expired (getStatus db s e now).2 s e now' _ hfind₁ hrem₂ hst₂
    have hmax₂ : max 0 (({ a with status := Status.expired, timeRemaining := 0 } : ExamAttempt).timeRemaining -
        Int.ediv (now' - ({ a with status := Status.expired, timeRemaining := 0 } : ExamAttempt).startedAt) 1000) = 0 := by
      have : ({ a with status := Status.expired, timeRemaining := 0 } : ExamAttempt).timeRemaining = 0 := rfl
      omega
    rw [hmax₂] at hrun₂
    have hsame : ({ { a with status := Status.expired, timeRemaining := 0 } with
        status := Status.expired, timeRemaining := 0 } : ExamAttempt) =
        { a with status := Status.expired, timeRemaining := 0 } := rfl
    rw [hsame] at hrun₂
    refine ⟨by rw [hrun₂], ?_⟩
    rw [hrun₂]
    exact find?_saveAttempt (getStatus db s e now).2 _ _ _ hfind₁ rfl hpexp
  · intro hrem
    have hpos : 0 < a.timeRemaining - Int.ediv (now - a.startedAt) 1000 := by
      rcases max_cases (0 : Int) (a.timeRemaining - Int.ediv (now - a.startedAt) 1000) with
        ⟨heq, _⟩ | ⟨heq, _⟩ <;> omega
    exact getStatus_run_of_live db s e now a h hpos

/-- Concrete witness for `getStatus_expiry`: an attempt with 50 s
checkpointed, read 60 s after start, then again 70 s after start. -/
theorem getStatus_expiry_witness :
    (getStatus ⟨[], [⟨1, 2, 3, 0, 0, 50, Status.started, false⟩], [], 10⟩ 2 3 60000).1 =
      GetStatusResult.ok ⟨1, 2, 3, 0, 0, 0, Status.expired, false⟩ 0 ∧
    findAttemptByPair (getStatus ⟨[], [⟨1, 2, 3, 0, 0, 50, Status.started, false⟩], [], 10⟩
        2 3 60000).2 2 3 = some ⟨1, 2, 3, 0, 0, 0, Status.expired, false⟩ ∧
    (getStatus (getStatus ⟨[], [⟨1, 2, 3, 0, 0, 50, Status.started, false⟩], [], 10⟩
        2 3 60000).2 2 3 70000).1 =
      GetStatusResult.ok ⟨1, 2, 3, 0, 0, 0, Status.expired, false⟩ 0 ∧
    findAttemptByPair (getStatus (getStatus
        ⟨[], [⟨1, 2, 3, 0, 0, 50, Status.started, false⟩], [], 10⟩ 2 3 60000).2
        2 3 70000).2 2 3 = some ⟨1, 2, 3, 0, 0, 0, Status.expired, false⟩ := by
  have h := getStatus_expiry ⟨[], [⟨1, 2, 3, 0, 0, 50, Status.started, false⟩], [], 10⟩
    2 3 60000 70000 ⟨1, 2, 3, 0, 0, 50, Status.started, false⟩ (by decide)
  have h1 := h.1 (by decide) (by decide)
  have h2 := h1.2.2 (by decide)
  exact ⟨by simpa using h1.1, by simpa using h1.2.1, by simpa using h2.1,
    by simpa using h2.2⟩

/-! ### C3: Complete is unconditional and makes Start fail -/

/-- C3.  Complete always succeeds for the owning student regardless of
the attempt's current status (including `expired`): it persists
`status = completed`, `isCompleted = true`.  Afterwards, as long as no
submission exists for the pair, Start on the same (studentId, examId)
fails with AlreadyCompleted and leaves the store unchanged. -/
theorem complete_always_then_start_rejected (db : DB) (a : ExamAttempt)
    (exam : Exam) (now : Int)
    (h : findAttemptByOwner db a.id a.studentId = some a)
    (hpair : findAttemptByPair db a.studentId a.examId = some a)
    (hexam : findExam db a.examId = some exam)
    (hsub : findSubmission db a.studentId a.examId = none) :
    (completeAttempt db a.id a.studentId).1 = CompleteResult.ok ∧
    findAttemptByPair (completeAttempt db a.id a.studentId).2 a.studentId a.examId =
      some { a with status := Status.completed, isCompleted := true } ∧
    startAttempt (completeAttempt db a.id a.studentId).2 a.studentId a.examId now =
      (StartResult.alreadyCompleted, (completeAttempt db a.id a.studentId).2) := by
  have hrun : completeAttempt db a.id a.studentId =
      (CompleteResult.ok,
        saveAttempt db { a with status := Status.completed, isCompleted := true }) := by
    simp only [completeAttempt, h]
  have hfind₂ : findAttemptByPair (completeAttempt db a.id a.studentId).2
      a.studentId a.examId = some { a with status := Status.completed, isCompleted := true } := by
    rw [hrun]
    exact find?_saveAttempt db _ a _ hpair rfl (by simp)
  refine ⟨by rw [hrun], hfind₂, ?_⟩
  have hexam₂ : findExam (completeAttempt db a.id a.studentId).2 a.examId = some exam := by
    rw [hrun]; exact hexam
  have hsub₂ : findSubmission (completeAttempt db a.id a.studentId).2
      a.studentId a.examId = none := by
    rw [hrun]; exact hsub
  simp only [startAttempt, hexam₂, hsub₂, hfind₂]
  rw [if_pos trivial]

/-- Concrete witness for `complete_always_then_start_rejected`: the
completed attempt had already expired, Complete still succeeds, and a
later Start is rejected with AlreadyCompleted. -/
theorem complete_always_then_start_rejected_witness :
    (completeAttempt ⟨[⟨3, "t", "f", none, 60, 9, true⟩],
        [⟨1, 2, 3, 0, 0, 100, Status.expired, false⟩], [], 10⟩ 1 2).1 =
      CompleteResult.ok ∧
    findAttemptByPair (completeAttempt ⟨[⟨3, "t", "f", none, 60, 9, true⟩],
        [⟨1, 2, 3, 0, 0, 100, Status.expired, false⟩], [], 10⟩ 1 2).2 2 3 =
      some ⟨1, 2, 3, 0, 0, 100, Status.completed, true⟩ ∧
    startAttempt (completeAttempt ⟨[⟨3, "t", "f", none, 60, 9, true⟩],
        [⟨1, 2, 3, 0, 0, 100, Status.expired, false⟩], [], 10⟩ 1 2).2 2 3 500 =
      (StartResult.alreadyCompleted,
        (completeAttempt ⟨[⟨3, "t", "f", none, 60, 9, true⟩],
          [⟨1, 2, 3, 0, 0, 100, Status.expired, false⟩], [], 10⟩ 1 2).2) := by
  have h := complete_always_then_start_rejected
    ⟨[⟨3, "t", "f", none, 60, 9, true⟩],
      [⟨1, 2, 3, 0, 0, 100, Status.expired, false⟩], [], 10⟩
    ⟨1, 2, 3, 0, 0, 100, Status.expired, false⟩ ⟨3, "t", "f", none, 60, 9, true⟩ 500
    (by decide) (by decide) (by decide) (by decide)
  exact ⟨h.1, h.2.1, h.2.2⟩

/-! ### C4 / C5: UpdateTime -/

/-- Helper: one full run of UpdateTime when the attempt is found.  The
status condition `max 0 v ≤ 0` of the handler is rephrased as `v ≤ 0`. -/
theorem updateTime_run (db : DB) (attemptId studentId : Nat) (v now : Int)
    (a : ExamAttempt) (h : findAttemptByOwner db attemptId studentId = some a) :
    updateTime db attemptId studentId v now =
      (UpdateTimeResult.ok
        { a with timeRemaining := max 0 v, lastAccessedAt := now,
                 status := if v ≤ 0 then Status.expired else a.status },
       saveAttempt db
        { a with timeRemaining := max 0 v, lastAccessedAt := now,
                 status := if v ≤ 0 then Status.expired else a.status }) := by
  have hiff : (max 0 v ≤ 0) = (v ≤ 0) := by
    apply propext
    constructor <;> intro hv <;> omega
  simp only [updateTime, h, hiff]

/-- C5.  UpdateTime: an attempt not owned by the caller yields NotFound
with the store untouched; otherwise the input is clamped to `max 0 v`
(never negative), the clamped value and `lastAccessedAt = now` are
persisted, and the status transitions to `expired` exactly when the input
clamps to `0` (in particular on any negative input). -/
theorem updateTime_clamps_and_expires (db : DB) (attemptId studentId : Nat)
    (v now : Int) :
    (findAttemptByOwner db attemptId studentId = none →
      updateTime db attemptId studentId v now = (UpdateTimeResult.notFound, db)) ∧
    (∀ a, findAttemptByOwner db attemptId studentId = some a →
      updateTime db attemptId studentId v now =
        (UpdateTimeResult.ok
          { a with timeRemaining := max 0 v, lastAccessedAt := now,
                   status := if v ≤ 0 then Status.expired else a.status },
         saveAttempt db
          { a with timeRemaining := max 0 v, lastAccessedAt := now,
                   status := if v ≤ 0 then Status.expired else a.status }) ∧
      findAttemptByOwner (updateTime db attemptId studentId v now).2
          attemptId studentId =
        some { a with timeRemaining := max 0 v, lastAccessedAt := now,
                      status := if v ≤ 0 then Status.expired else a.status } ∧
      (0 : Int) ≤ max 0 v) := by
  constructor
  · intro h
    simp only [updateTime, h]
  · intro a h
    have hrun := updateTime_run db attemptId studentId v now a h
    refine ⟨hrun, ?_, le_max_left 0 v⟩
    rw [hrun]
    exact find?_saveAttempt db _ a _ h rfl (by simpa using List.find?_some h)

/-- Concrete witness for `updateTime_clamps_and_expires`: owner mismatch
gives NotFound; a negative input (-7) on the owned attempt clamps to 0 and
expires it. -/
theorem updateTime_clamps_and_expires_witness :
    updateTime ⟨[], [⟨1, 2, 3, 0, 0, 50, Status.started, false⟩], [], 10⟩ 1 9 (-7) 5 =
      (UpdateTimeResult.notFound,
        ⟨[], [⟨1, 2, 3, 0, 0, 50, Status.started, false⟩], [], 10⟩) ∧
    updateTime ⟨[], [⟨1, 2, 3, 0, 0, 50, Status.started, false⟩], [], 10⟩ 1 2 (-7) 5 =
      (UpdateTimeResult.ok ⟨1, 2, 3, 0, 5, 0, Status.expired, false⟩,
       saveAttempt ⟨[], [⟨1, 2, 3, 0, 0, 50, Status.started, false⟩], [], 10⟩
         ⟨1, 2, 3, 0, 5, 0, Status.expired, false⟩) ∧
    findAttemptByOwner (updateTime ⟨[], [⟨1, 2, 3, 0, 0, 50, Status.started, false⟩],
        [], 10⟩ 1 2 (-7) 5).2 1 2 =
      some ⟨1, 2, 3, 0, 5, 0, Status.expired, false⟩ := by
  have hnone := (updateTime_clamps_and_expires
    ⟨[], [⟨1, 2, 3, 0, 0, 50, Status.started, false⟩], [], 10⟩ 1 9 (-7) 5).1 (by decide)
  have hsome := (updateTime_clamps_and_expires
    ⟨[], [⟨1, 2, 3, 0, 0, 50, Status.started, false⟩], [], 10⟩ 1 2 (-7) 5).2
    ⟨1, 2, 3, 0, 0, 50, Status.started, false⟩ (by decide)
  refine ⟨hnone, ?_, ?_⟩
  · have := hsome.1
    simpa using this
  · have := hsome.2.1
    simpa using this

/-- C4 counterexample.  The claim says a record with `isCompleted = true`
or `status = completed` accepts no further time update as a state change;
but UpdateTime on such a record overwrites `timeRemaining` (50 becomes
100), and with input 0 it even moves the status out of `completed` to
`expired`. -/
theorem completed_accepts_update_cex :
    findAttemptByOwner (updateTime ⟨[], [⟨1, 2, 3, 0, 0, 50, Status.completed, true⟩],
        [], 10⟩ 1 2 100 7).2 1 2 =
      some ⟨1, 2, 3, 0, 7, 100, Status.completed, true⟩ ∧
    (100 : Int) ≠ 50 ∧
    findAttemptByOwner (updateTime ⟨[], [⟨1, 2, 3, 0, 0, 50, Status.completed, true⟩],
        [], 10⟩ 1 2 0 7).2 1 2 =
      some ⟨1, 2, 3, 0, 7, 0, Status.expired, true⟩ ∧
    Status.expired ≠ Status.completed := by
  decide

/-- C4 (amended).  A record with `isCompleted = true` or
`status = completed` is not terminal for UpdateTime: the handler never
checks completion, so an authorized UpdateTime still persists the clamped
value and `lastAccessedAt`, and moves the status to `expired` when the
input clamps to 0.  Only GetStatus treats `status = completed` as
terminal: it then never mutates the stored record. -/
theorem completed_record_still_updatable (db : DB) (a : ExamAttempt)
    (v now now' : Int)
    (_hcomp : a.isCompleted = true ∨ a.status = Status.completed)
    (h : findAttemptByOwner db a.id a.studentId = some a)
    (hpair : findAttemptByPair db a.studentId a.examId = some a) :
    findAttemptByOwner (updateTime db a.id a.studentId v now).2 a.id a.studentId =
      some { a with timeRemaining := max 0 v, lastAccessedAt := now,
                    status := if v ≤ 0 then Status.expired else a.status } ∧
    (a.status = Status.completed →
      (getStatus db a.studentId a.examId now').2 = db) := by
  constructor
  · have hrun := updateTime_run db a.id a.studentId v now a h
    rw [hrun]
    exact find?_saveAttempt db _ a _ h rfl (by simp)
  · intro hst
    have hcond : (decide (max 0 (a.timeRemaining -
        Int.ediv (now' - a.startedAt) 1000) ≤ 0) && (a.status != Status.completed)) = false := by
      simp [hst]
    simp only [getStatus, hpair]
    rw [if_neg (by simp [hcond, hst])]

/-- Concrete witness for `completed_record_still_updatable`: a completed
attempt, time update to 0 expires it; GetStatus on it mutates nothing. -/
theorem completed_record_still_updatable_witness :
    findAttemptByOwner (updateTime ⟨[], [⟨1, 2, 3, 0, 0, 50, Status.completed, true⟩],
        [], 10⟩ 1 2 0 7).2 1 2 =
      some ⟨1, 2, 3, 0, 7, 0, Status.expired, true⟩ ∧
    (getStatus ⟨[], [⟨1, 2, 3, 0, 0, 50, Status.completed, true⟩], [], 10⟩ 2 3 999999).2 =
      ⟨[], [⟨1, 2, 3, 0, 0, 50, Status.completed, true⟩], [], 10⟩ := by
  have h := completed_record_still_updatable
    ⟨[], [⟨1, 2, 3, 0, 0, 50, Status.completed, true⟩], [], 10⟩
    ⟨1, 2, 3, 0, 0, 50, Status.completed, true⟩ 0 7 999999
    (Or.inl (by decide)) (by decide) (by decide)
  refine ⟨?_, h.2 (by decide)⟩
  have := h.1
  simpa using this

/-! ### C6: one submission per (studentId, examId) -/

/-- C6.  With no prior submission, the first Submit creates the row; a
second Submit for the same (studentId, examId) fails with the duplicate
conflict and leaves the store — in particular the first submission's
`answerUrl` — completely unchanged, so no second row is ever created for
the pair. -/
theorem submit_twice_rejected (db : DB) (s e : Nat) (exam : Exam)
    (url₁ url₂ : String) (now₁ now₂ : Int)
    (hexam : findExam db e = some exam)
    (hnone : findSubmission db s e = none) :
    (submitAnswer db s e url₁ now₁).1 =
      SubmitResult.created ⟨db.nextId, s, e, url₁, now₁⟩ ∧
    submitAnswer (submitAnswer db s e url₁ now₁).2 s e url₂ now₂ =
      (SubmitResult.duplicate, (submitAnswer db s e url₁ now₁).2) ∧
    findSubmission (submitAnswer db s e url₁ now₁).2 s e =
      some ⟨db.nextId, s, e, url₁, now₁⟩ := by
  have h1 : submitAnswer db s e url₁ now₁ =
      (SubmitResult.created ⟨db.nextId, s, e, url₁, now₁⟩,
        { db with submissions := db.submissions ++ [⟨db.nextId, s, e, url₁, now₁⟩],
                  nextId := db.nextId + 1 }) := by
    simp only [submitAnswer, hexam, hnone]
  have hexam₁ : findExam (submitAnswer db s e url₁ now₁).2 e = some exam := by
    rw [h1]; exact hexam
  have hfind₁ : findSubmission (submitAnswer db s e url₁ now₁).2 s e =
      some ⟨db.nextId, s, e, url₁, now₁⟩ := by
    rw [h1]
    show (db.submissions ++ [(⟨db.nextId, s, e, url₁, now₁⟩ : Submission)]).find? _ = _
    rw [List.find?_append]
    have hnone' : db.submissions.find?
        (fun x => x.studentId == s && x.examId == e) = none := hnone
    rw [hnone']
    simp
  refine ⟨by rw [h1], ?_, hfind₁⟩
  generalize hdb : (submitAnswer db s e url₁ now₁).2 = db₁ at hexam₁ hfind₁ ⊢
  simp only [submitAnswer, hexam₁, hfind₁]

/-- Concrete witness for `submit_twice_rejected`. -/
theorem submit_twice_rejected_witness :
    (submitAnswer ⟨[⟨3, "t", "f", none, 60, 9, true⟩], [], [], 10⟩ 2 3 "u1" 5).1 =
      SubmitResult.created ⟨10, 2, 3, "u1", 5⟩ ∧
    submitAnswer (submitAnswer ⟨[⟨3, "t", "f", none, 60, 9, true⟩], [], [], 10⟩
        2 3 "u1" 5).2 2 3 "u2" 6 =
      (SubmitResult.duplicate,
        (submitAnswer ⟨[⟨3, "t", "f", none, 60, 9, true⟩], [], [], 10⟩ 2 3 "u1" 5).2) ∧
    findSubmission (submitAnswer ⟨[⟨3, "t", "f", none, 60, 9, true⟩], [], [], 10⟩
        2 3 "u1" 5).2 2 3 = some ⟨10, 2, 3, "u1", 5⟩ := by
  have h := submit_twice_rejected ⟨[⟨3, "t", "f", none, 60, 9, true⟩], [], [], 10⟩
    2 3 ⟨3, "t", "f", none, 60, 9, true⟩ "u1" "u2" 5 6 (by decide) (by decide)
  exact ⟨h.1, h.2.1, h.2.2⟩

/-! ### C10: an http-prefixed reference short-circuits everything -/

/-- C10.  Any reference string beginning with `http` is redirected to
verbatim, for every exam collection and every blob-store content: the
handler returns before the ObjectId validation, the exam lookup, the
active check and the GridFS access, so NotFound, InvalidReference and
Forbidden are unreachable for URL-shaped references whatever the string's
remainder. -/
theorem http_reference_always_redirects (exams : List Exam)
    (grid : List GridFile) (ref : String)
    (h : strStartsWith ref "http" = true) :
    serveExamFile exams grid ref = FileResult.redirect ref := by
  simp only [serveExamFile, h, if_true]

/-- Concrete witness for `http_reference_always_redirects`: a nonsense
remainder after `http`, a non-empty store whose exam is inactive. -/
theorem http_reference_always_redirects_witness :
    serveExamFile [⟨1, "t", "zzz", none, 60, 9, false⟩] [⟨"zzz", none, none⟩]
      "http##not-a-url" = FileResult.redirect "http##not-a-url" :=
  http_reference_always_redirects _ _ _ (by decide)

/-! ### C7: file resolution policy -/

/-- C7 counterexample.  A blob-store key (valid ObjectId) whose owning
exam is NOT active does not fail with Forbidden when the exam record also
carries a populated legacy external URL: the legacy redirect is checked
before the active check, so the handler redirects. -/
theorem inactive_exam_with_legacy_url_cex :
    serveExamFile
      [⟨1, "t", "aaaaaaaaaaaaaaaaaaaaaaaa", some "http://legacy", 60, 9, false⟩]
      [] "aaaaaaaaaaaaaaaaaaaaaaaa" = FileResult.redirect "http://legacy" ∧
    FileResult.redirect "http://legacy" ≠ FileResult.forbidden := by
  decide

/-- C7 (amended).  The resolution policy: an `http`-prefixed reference is
always redirected, for any blob-store content (the blob store is never
consulted); a blob-store key whose owning exam is not active and carries
no `http`-prefixed legacy URL fails with Forbidden; a blob-store key of an
active exam with no such legacy URL and whose blob is present streams it
inline with the stored content type, the stored original filename, and a
one-hour (3600 s) cache lifetime. -/
theorem file_resolution_policy (exams : List Exam) (grid : List GridFile)
    (ref : String) (exam : Exam) (f : GridFile) (ct fn : String) :
    (strStartsWith ref "http" = true →
      ∀ g : List GridFile, serveExamFile exams g ref = FileResult.redirect ref) ∧
    (strStartsWith ref "http" = false →
      isValidObjectId ref = true →
      exams.find? (fun x => x.examFileId == ref || x.examPdfUrl == some ref) = some exam →
      (∀ url, exam.examPdfUrl = some url → strStartsWith url "http" = false) →
      ((exam.isActive = false →
        serveExamFile exams grid ref = FileResult.forbidden) ∧
       (exam.isActive = true →
        grid.find? (fun g => g.id == ref) = some f →
        f.contentType = some ct → f.filename = some fn →
        serveExamFile exams grid ref = FileResult.stream ct fn 3600))) := by
  constructor
  · intro h g
    simp only [serveExamFile, h, if_true]
  · intro hh hv hfind hleg
    have hstep : serveExamFile exams grid ref =
        serveExamFile.serveActive exam grid ref := by
      simp only [serveExamFile, hh, hv, Bool.not_true, Bool.false_eq_true,
        if_false, hfind]
      cases hurl : exam.examPdfUrl with
      | none => rfl
      | some url => simp [hleg url hurl]
    constructor
    · intro hact
      rw [hstep]
      simp [serveExamFile.serveActive, hact]
    · intro hact hgrid hct hfn
      rw [hstep]
      simp [serveExamFile.serveActive, hact, hgrid, hct, hfn]

/-- Concrete witness for `file_resolution_policy`: an inactive exam with
no legacy URL is Forbidden; an active exam with a stored blob streams it;
an http reference redirects. -/
theorem file_resolution_policy_witness :
    serveExamFile [⟨1, "t", "aaaaaaaaaaaaaaaaaaaaaaaa", none, 60, 9, false⟩] []
      "aaaaaaaaaaaaaaaaaaaaaaaa" = FileResult.forbidden ∧
    serveExamFile [⟨1, "t", "bbbbbbbbbbbbbbbbbbbbbbbb", none, 60, 9, true⟩]
      [⟨"bbbbbbbbbbbbbbbbbbbbbbbb", some "application/pdf", some "orig.pdf"⟩]
      "bbbbbbbbbbbbbbbbbbbbbbbb" =
      FileResult.stream "application/pdf" "orig.pdf" 3600 ∧
    serveExamFile [] [] "http://u" = FileResult.redirect "http://u" := by
  refine ⟨?_, ?_, ?_⟩
  · exact ((file_resolution_policy
      [⟨1, "t", "aaaaaaaaaaaaaaaaaaaaaaaa", none, 60, 9, false⟩] []
      "aaaaaaaaaaaaaaaaaaaaaaaa" ⟨1, "t", "aaaaaaaaaaaaaaaaaaaaaaaa", none, 60, 9, false⟩
      ⟨"", none, none⟩ "" "").2 (by decide) (by decide) (by decide)
      (fun url h => nomatch h)).1 (by decide)
  · exact ((file_resolution_policy
      [⟨1, "t", "bbbbbbbbbbbbbbbbbbbbbbbb", none, 60, 9, true⟩]
      [⟨"bbbbbbbbbbbbbbbbbbbbbbbb", some "application/pdf", some "orig.pdf"⟩]
      "bbbbbbbbbbbbbbbbbbbbbbbb" ⟨1, "t", "bbbbbbbbbbbbbbbbbbbbbbbb", none, 60, 9, true⟩
      ⟨"bbbbbbbbbbbbbbbbbbbbbbbb", some "application/pdf", some "orig.pdf"⟩
      "application/pdf" "orig.pdf").2 (by decide) (by decide) (by decide)
      (fun url h => nomatch h)).2 (by decide) (by decide) (by decide) (by decide)
  · exact (file_resolution_policy [] [] "http://u" ⟨0, "", "", none, 0, 0, false⟩
      ⟨"", none, none⟩ "" "").1 (by decide) []

/-! ### C8: role-scoped exam listing -/

/-- C8 counterexample.  A teacher's own INACTIVE exam is absent from
their listing: the handler adds `isActive: true` to the teacher query, so
the result is not "all exams with creatorId = requesterId regardless of
the active flag". -/
theorem teacher_listing_own_inactive_cex :
    listExams Role.teacher 7 [⟨1, "t", "f", none, 60, 7, false⟩] = [] ∧
    (⟨1, "t", "f", none, 60, 7, false⟩ : Exam).createdBy = 7 := by
  decide

/-- C8 (amended).  The listing keeps, for a student, exactly the active
exams; for a teacher, exactly the exams they created that are ALSO
active; for an admin, every exam. -/
theorem listExams_role_visibility (r : Nat) (exams : List Exam) (exam : Exam) :
    (exam ∈ listExams Role.student r exams ↔
      exam ∈ exams ∧ exam.isActive = true) ∧
    (exam ∈ listExams Role.teacher r exams ↔
      exam ∈ exams ∧ exam.createdBy = r ∧ exam.isActive = true) ∧
    (exam ∈ listExams Role.admin r exams ↔ exam ∈ exams) := by
  refine ⟨?_, ?_, ?_⟩ <;>
    simp [listExams, List.mem_filter, and_assoc]

/-! ### C9: only the creator toggles isActive -/

/-- C9 counterexample.  An authenticated teacher (id 8) who is not the
creator (id 7) of an existing exam gets the 404 NotFound response from
both cancel and activate — the handlers mask non-ownership as "not
found" and have no Forbidden (403) outcome at all — though the exam's
`isActive` flag is indeed unchanged. -/
theorem toggle_noncreator_not_forbidden_cex :
    cancelExam ⟨[⟨1, "t", "f", none, 60, 7, true⟩], [], [], 0⟩ 1 8 =
      (ToggleResult.notFound, ⟨[⟨1, "t", "f", none, 60, 7, true⟩], [], [], 0⟩) ∧
    activateExam ⟨[⟨1, "t", "f", none, 60, 7, false⟩], [], [], 0⟩ 1 8 =
      (ToggleResult.notFound, ⟨[⟨1, "t", "f", none, 60, 7, false⟩], [], [], 0⟩) := by
  decide

/-- Variant of `find?_map_update` for maps that preserve the search
predicate pointwise: the located row is mapped in place. -/
theorem find?_map_of_pres {α} (l : List α) (p : α → Bool) (g : α → α)
    (hpres : ∀ x, p (g x) = p x) (a : α) (h : l.find? p = some a) :
    (l.map g).find? p = some (g a) := by
  induction l with
  | nil => simp at h
  | cons x xs ih =>
    by_cases hpx : p x = true
    · rw [List.find?_cons_of_pos _ hpx] at h
      have hx : x = a := by injection h
      subst hx
      rw [List.map_cons]
      exact List.find?_cons_of_pos _ (by rw [hpres]; exact hpx)
    · rw [List.find?_cons_of_neg _ hpx] at h
      rw [List.map_cons, List.find?_cons_of_neg _ (by rw [hpres x]; exact hpx)]
      exact ih h

/-- C9 (amended).  A cancel or activate request by a teacher who did not
create the exam fails with NotFound (the handlers look the exam up by
`_id` AND `createdBy`, masking non-ownership as a 404; there is no
Forbidden outcome) and the store — in particular `isActive` — is
unchanged.  The creator's own request does toggle the flag. -/
theorem exam_toggle_creator_only (db : DB) (examId teacherId : Nat)
    (exam : Exam) :
    ((∀ x ∈ db.exams, x.id = examId → x.createdBy ≠ teacherId) →
      cancelExam db examId teacherId = (ToggleResult.notFound, db) ∧
      activateExam db examId teacherId = (ToggleResult.notFound, db)) ∧
    (findExamByCreator db examId teacherId = some exam →
      findExam db examId = some exam →
      ((exam.isActive = true →
        (cancelExam db examId teacherId).1 = ToggleResult.ok ∧
        findExam (cancelExam db examId teacherId).2 examId =
          some { exam with isActive := false }) ∧
       (exam.isActive = false →
        (activateExam db examId teacherId).1 = ToggleResult.ok ∧
        findExam (activateExam db examId teacherId).2 examId =
          some { exam with isActive := true }))) := by
  constructor
  · intro hno
    have hnone : findExamByCreator db examId teacherId = none := by
      apply List.find?_eq_none.mpr
      intro x hx hpx
      have hpx' : x.id = examId ∧ x.createdBy = teacherId := by
        simpa using hpx
      exact hno x hx hpx'.1 hpx'.2
    exact ⟨by simp only [cancelExam, hnone], by simp only [activateExam, hnone]⟩
  · intro hfind hfind2
    have hpe : (exam.id == examId) = true := by
      have := List.find?_some hfind
      simp only [Bool.and_eq_true] at this
      exact this.1
    have hset : ∀ b : Bool,
        findExam (setExamActive db examId b) examId =
          some { exam with isActive := b } := by
      intro b
      have hpres : ∀ x : Exam,
          ((fun y : Exam => y.id == examId)
            (if x.id == examId then { x with isActive := b } else x)) =
          ((fun y : Exam => y.id == examId) x) := by
        intro x
        by_cases hx : (x.id == examId) = true
        · simp [hx]
        · simp [hx]
      have hthis := find?_map_of_pres db.exams (fun y => y.id == examId)
        (fun x => if x.id == examId then { x with isActive := b } else x)
        hpres exam hfind2
      have hgx : (fun x : Exam => if x.id == examId then { x with isActive := b } else x) exam
          = { exam with isActive := b } := by
        simp only [hpe, if_true]
      rw [hgx] at hthis
      exact hthis
    constructor
    · intro hact
      have hrun : cancelExam db examId teacherId =
          (ToggleResult.ok, setExamActive db examId false) := by
        simp only [cancelExam, hfind, hact, Bool.not_true, Bool.false_eq_true,
          if_false]
      exact ⟨by rw [hrun], by rw [hrun]; exact hset false⟩
    · intro hact
      have hrun : activateExam db examId teacherId =
          (ToggleResult.ok, setExamActive db examId true) := by
        simp only [activateExam, hfind, hact, Bool.false_eq_true, if_false]
      exact ⟨by rw [hrun], by rw [hrun]; exact hset true⟩

/-- Concrete witness for `exam_toggle_creator_only`: teacher 8 is denied
on teacher 7's exam with the store untouched; teacher 7 cancels their own
active exam, flipping `isActive` to false. -/
theorem exam_toggle_creator_only_witness :
    cancelExam ⟨[⟨1, "t", "f", none, 60, 7, true⟩], [], [], 0⟩ 1 8 =
      (ToggleResult.notFound, ⟨[⟨1, "t", "f", none, 60, 7, true⟩], [], [], 0⟩) ∧
    (cancelExam ⟨[⟨1, "t", "f", none, 60, 7, true⟩], [], [], 0⟩ 1 7).1 =
      ToggleResult.ok ∧
    findExam (cancelExam ⟨[⟨1, "t", "f", none, 60, 7, true⟩], [], [], 0⟩ 1 7).2 1 =
      some ⟨1, "t", "f", none, 60, 7, false⟩ := by
  have hno := (exam_toggle_creator_only
    ⟨[⟨1, "t", "f", none, 60, 7, true⟩], [], [], 0⟩ 1 8
    ⟨1, "t", "f", none, 60, 7, true⟩).1
    (by intro x hx hid; simp at hx; subst hx; decide)
  have hyes := ((exam_toggle_creator_only
    ⟨[⟨1, "t", "f", none, 60, 7, true⟩], [], [], 0⟩ 1 7
    ⟨1, "t", "f", none, 60, 7, true⟩).2 (by decide) (by decide)).1 (by decide)
  refine ⟨hno.1, hyes.1, ?_⟩
  have := hyes.2
  simpa using this

end ExamTester
